import Mathlib

/-!
Verification development for the flood-storm-dashboard repository.

The repository is a set of Streamlit dashboard scripts (`app.py`,
`app_debug.py`, `app_enhanced.py`, `app_final.py`) whose data logic consists
of calls into xarray / pandas / numpy:

* nearest-grid-point selection: `ds['pr'].sel(lat=.., lon=.., method='nearest')`
  (pandas `get_indexer(method="nearest")`: minimize the absolute difference,
  tied distances broken by preferring the larger index value);
* yearly aggregation: `ds.groupby('time.year').max('time')` (group keys are the
  distinct calendar years, sorted ascending; per-group reduction skips NaN and
  yields NaN for an all-NaN group);
* spatial summary: `['pr'].mean(dim='time')` / `.mean(dim='year')` (per-cell
  mean over the time dimension, skipping NaN, NaN when all inputs are NaN);
* statistics: `df['pr'].max() / .min() / .mean() / .std()` (pandas skips NaN;
  `.std()` uses ddof=1 and returns NaN — it does not raise — when fewer than
  two non-missing values are present; max/min/mean of an empty series are NaN);
* trend: `np.polyfit(df['year'], df['pr'], 1)` (degree-1 least squares against
  the year values);
* click handling: a clicked coordinate is stored in the session state only if
  it lies within `[lat.min(), lat.max()] x [lon.min(), lon.max()]`;
* CSV export: `df.to_csv(index=False)` where `df = ts.to_dataframe().reset_index()`
  — xarray's `to_dataframe` includes the scalar coordinates `lat` and `lon` of
  the selected point as columns, so the exported table has the four columns
  `year,lat,lon,pr`, one row per sample, each line terminated by a newline.

Real numbers are modelled by `ℚ`; the floating-point NaN used by the libraries
as the missing-value marker is modelled by `Option ℚ` with `none` for NaN.
Python exceptions that the library calls can actually raise are modelled by
the `PyError` type.
-/

namespace FloodStorm

/-- A timestamp: its calendar year (what `ds['time'].dt.year` extracts) and an
ordinal identifying the sample within the year. -/
structure Time where
  year : Int
  sub : Nat
deriving DecidableEq

/-- A 2-dimensional (lat × lon) slice of data; `none` models NaN. -/
abbrev Grid := List (List (Option ℚ))

/-- A gridded, step-indexed scalar field: one `Grid` per step.  For the raw
dataset the steps are timestamps (`GriddedField`); for the yearly aggregate
the steps are calendar years (`YearlyAggregate`). -/
structure Stack (σ : Type) where
  steps : List σ
  lats : List ℚ
  lons : List ℚ
  data : List Grid

/-- The raw dataset: a 3-d array indexed by (time, lat, lon). -/
abbrev GriddedField := Stack Time

/-- The yearly aggregate: a 3-d array indexed by (year, lat, lon). -/
abbrev YearlyAggregate := Stack Int

/-- Cell access with the out-of-range default `none` (the library guarantees
indices are in range; the default only makes the embedding total). -/
def getCell (g : Grid) (i j : Nat) : Option ℚ :=
  (g.getD i []).getD j none

/-- Build a grid of shape `nlat × nlon` from a cell function. -/
def mkGrid (nlat nlon : Nat) (f : Nat → Nat → Option ℚ) : Grid :=
  (List.range nlat).map fun i => (List.range nlon).map fun j => f i j

/-- NaN-skipping binary maximum, as used by the skipna reductions of
xarray/pandas: a missing operand is ignored, two missing operands stay
missing. -/
def maxOpt : Option ℚ → Option ℚ → Option ℚ
  | none, b => b
  | some a, none => some a
  | some a, some b => some (max a b)

/-- NaN-skipping maximum of a list of values (`none` when all are missing),
modelling `.max('time')` within one groupby group. -/
def listMaxOpt (l : List (Option ℚ)) : Option ℚ :=
  l.foldr maxOpt none

/-- The non-missing values of a series, in order (what the skipna reductions
of pandas actually operate on). -/
def nonMissing (l : List (Option ℚ)) : List ℚ :=
  l.filterMap id

/-- NaN-skipping arithmetic mean (`none` when all inputs are missing),
modelling `.mean(...)` with the default `skipna=True`. -/
def meanOpt (l : List (Option ℚ)) : Option ℚ :=
  let vs := nonMissing l
  if vs.isEmpty then none else some (vs.sum / (vs.length : ℚ))

/-- `summarize`: the spatial summary used for the map, i.e.
`['pr'].mean(dim='time')` (resp. `.mean(dim='year')`): the per-cell mean over
the step dimension, skipping NaN, with NaN for a cell whose inputs are all
NaN. -/
def summarize {σ : Type} (s : Stack σ) : Grid :=
  mkGrid s.lats.length s.lons.length fun i j =>
    meanOpt (s.data.map fun g => getCell g i j)

/-- Insert a year into a sorted duplicate-free list, keeping it sorted and
duplicate-free. -/
def insertYear (y : Int) : List Int → List Int
  | [] => [y]
  | z :: rest =>
    if y < z then y :: z :: rest
    else if y = z then z :: rest
    else z :: insertYear y rest

/-- The sorted list of distinct elements, modelling the sorted unique group
keys produced by `groupby('time.year')` (xarray factorizes the year values
with sorting). -/
def sortedUniq (l : List Int) : List Int :=
  l.foldr insertYear []

/-- The time slices of a field falling in calendar year `y` (the members of
one groupby group), in their original time order. -/
def yearSlices (f : GriddedField) (y : Int) : List Grid :=
  ((f.steps.zip f.data).filter fun p => p.1.year = y).map (·.2)

/-- The reduced cell value of year `y` at position `(i, j)`: the NaN-skipping
maximum over the year's samples. -/
def yearCell (f : GriddedField) (y : Int) (i j : Nat) : Option ℚ :=
  listMaxOpt ((yearSlices f y).map fun g => getCell g i j)

/-- `aggregateYearly`: `ds.groupby(ds['time'].dt.year).max('time')` — one grid
per distinct calendar year present in the time coordinate, years sorted
ascending, each cell the NaN-skipping maximum over the year's samples. -/
def aggregateYearly (f : GriddedField) : YearlyAggregate :=
  let ys := sortedUniq (f.steps.map Time.year)
  { steps := ys
    lats := f.lats
    lons := f.lons
    data := ys.map fun y =>
      mkGrid f.lats.length f.lons.length fun i j => yearCell f y i j }

/-- The Python exceptions the modelled library calls can raise.  `keyError`
models the `KeyError` (a subclass of `LookupError`) that xarray raises from
`sel` when a coordinate axis is empty ("not all values found in index");
`typeError` models `np.polyfit`'s `TypeError: expected non-empty vector for x`
on an empty input; `linAlgError` models `numpy.linalg.LinAlgError`;
`valueError` models pandas' `ValueError`. -/
inductive PyError where
  | keyError
  | typeError
  | linAlgError
  | valueError
deriving DecidableEq

/-- The absolute difference `|a - b|`, written with an explicit comparison. -/
def absDist (a b : ℚ) : ℚ := if b ≤ a then a - b else b - a

/-- Fold step of the nearest-neighbour scan over `(index, value)` pairs:
a candidate replaces the current best when its distance to the query is less
than or equal — so of two equidistant grid values the scan keeps the later
(for an ascending axis: the larger) one, which is pandas'
`get_indexer(method="nearest")` rule "tied distances are broken by preferring
the larger index value". -/
def nearestGo (q : ℚ) : Nat × ℚ → List (Nat × ℚ) → Nat × ℚ
  | best, [] => best
  | best, p :: rest =>
    nearestGo q (if absDist p.2 q ≤ absDist best.2 q then p else best) rest

/-- The `(index, value)` of the grid coordinate nearest to the query, per
pandas `get_indexer(method="nearest")`; `none` on an empty axis (for which
xarray's `sel` raises `KeyError`). -/
def nearestPair (axis : List ℚ) (q : ℚ) : Option (Nat × ℚ) :=
  match axis.enum with
  | [] => none
  | p :: rest => some (nearestGo q p rest)

/-- The grid coordinate value nearest to the query. -/
def nearestVal (axis : List ℚ) (q : ℚ) : Option ℚ :=
  (nearestPair axis q).map (·.2)

/-- Written from the spec's words, for comparison with the code's behaviour:
the same nearest-neighbour scan but with ties broken by the FIRST match in
ascending coordinate order (a strictly closer candidate is needed to replace
the current best, so of two equidistant values the earlier one is kept). -/
def specNearestGo (q : ℚ) : ℚ → List ℚ → ℚ
  | best, [] => best
  | best, v :: rest =>
    specNearestGo q (if absDist v q < absDist best q then v else best) rest

/-- Written from the spec's words: nearest value with first-match-in-ascending-
order tie-breaking. -/
def specNearestVal (axis : List ℚ) (q : ℚ) : Option ℚ :=
  match axis with
  | [] => none
  | v :: rest => some (specNearestGo q v rest)

/-- The result of resolving a query point: the grid coordinates actually used
and the (step, value) series at that cell, in the stored step order. -/
structure ResolvedSeries (σ : Type) where
  lat : ℚ
  lon : ℚ
  series : List (σ × Option ℚ)
deriving DecidableEq

/-- `resolvePoint`: `['pr'].sel(lat=qlat, lon=qlon, method='nearest')` followed
by reading off the time series at the selected cell.  Each axis is resolved
independently by the nearest rule; an empty lat or lon axis makes `sel` raise
`KeyError` (a `LookupError`). -/
def resolvePoint {σ : Type} (s : Stack σ) (qlat qlon : ℚ) :
    Except PyError (ResolvedSeries σ) :=
  match nearestPair s.lats qlat, nearestPair s.lons qlon with
  | some pi, some pj =>
      .ok { lat := pi.2
            lon := pj.2
            series := s.steps.zip (s.data.map fun g => getCell g pi.1 pj.1) }
  | _, _ => .error .keyError

/-- The four summary statistics displayed by the dashboards.  `stddev` carries
the sample variance (ddof=1) rather than its square root, since the square
root leaves `ℚ`; its definedness — `none` exactly when pandas' `.std()`
returns NaN — is what the claims concern. -/
structure Stats where
  max : Option ℚ
  min : Option ℚ
  mean : Option ℚ
  stddev : Option ℚ
deriving DecidableEq

/-- `summarizeStatistics`: the statistics block
`df['pr'].max() / .min() / .mean() / .std()`.  pandas skips NaN, returns NaN
for max/min/mean of an empty series, and returns NaN from `.std()` (ddof=1)
when fewer than two non-missing values are present; none of these calls
raises. -/
def summarizeStatistics (vs : List (Option ℚ)) : Stats :=
  let nm := nonMissing vs
  { max := nm.max?
    min := nm.min?
    mean := if nm.isEmpty then none else some (nm.sum / (nm.length : ℚ))
    stddev :=
      if nm.length < 2 then none
      else
        let m := nm.sum / (nm.length : ℚ)
        some ((nm.map fun v => (v - m) ^ 2).sum / ((nm.length : ℚ) - 1)) }

/-- Sum of `f` over the points. -/
def sumBy (pts : List (ℚ × ℚ)) (f : ℚ × ℚ → ℚ) : ℚ :=
  (pts.map f).sum

/-- The number of points, as a rational. -/
def nQ (pts : List (ℚ × ℚ)) : ℚ := (pts.length : ℚ)

/-- The determinant `n·Σx² − (Σx)²` of the degree-1 least-squares normal
equations; zero exactly when the fit is rank-deficient (no two distinct x). -/
def lsqDen (pts : List (ℚ × ℚ)) : ℚ :=
  nQ pts * sumBy pts (fun p => p.1 ^ 2) - (sumBy pts (fun p => p.1)) ^ 2

/-- The least-squares slope `(n·Σxy − Σx·Σy) / (n·Σx² − (Σx)²)`. -/
def fitSlope (pts : List (ℚ × ℚ)) : ℚ :=
  (nQ pts * sumBy pts (fun p => p.1 * p.2)
    - sumBy pts (fun p => p.1) * sumBy pts (fun p => p.2)) / lsqDen pts

/-- The least-squares intercept `(Σy − slope·Σx) / n`. -/
def fitIntercept (pts : List (ℚ × ℚ)) : ℚ :=
  (sumBy pts (fun p => p.2) - fitSlope pts * sumBy pts (fun p => p.1)) / nQ pts

/-- `fitLinearTrend`: `np.polyfit(x, y, 1)` returning `(slope, intercept)`.
On an empty input numpy raises `TypeError: expected non-empty vector for x`.
On a rank-deficient input (all x equal some `x0`) numpy does not raise: after
its column scaling, `lstsq` returns the minimum-norm solution, which works out
to slope `Σy/(2·n·x0)` and intercept `Σy/(2·n)`; when `x0 = 0` the scaling
divides by zero and `lstsq` fails with `LinAlgError` on the resulting NaNs. -/
def fitLinearTrend (pts : List (ℚ × ℚ)) : Except PyError (ℚ × ℚ) :=
  match pts with
  | [] => .error .typeError
  | p0 :: _ =>
    if lsqDen pts = 0 then
      if p0.1 = 0 then .error .linAlgError
      else .ok (sumBy pts (fun p => p.2) / (2 * nQ pts * p0.1),
                sumBy pts (fun p => p.2) / (2 * nQ pts))
    else .ok (fitSlope pts, fitIntercept pts)

/-- The residual sum of squares of the line `y = a·x + b` on the points. -/
def SSE (pts : List (ℚ × ℚ)) (a b : ℚ) : ℚ :=
  sumBy pts (fun p => (p.2 - (a * p.1 + b)) ^ 2)

/-- The bounds check performed on a map click:
`ds.lat.min() <= clicked_lat <= ds.lat.max() and
 ds.lon.min() <= clicked_lon <= ds.lon.max()`.
On an empty axis the min/max are NaN and every comparison with NaN is false,
so the check fails. -/
def inBounds {σ : Type} (s : Stack σ) (clat clon : ℚ) : Bool :=
  match s.lats.min?, s.lats.max?, s.lons.min?, s.lons.max? with
  | some a, some b, some c, some d =>
      decide (a ≤ clat) && decide (clat ≤ b) && decide (c ≤ clon)
        && decide (clon ≤ d)
  | _, _, _, _ => false

/-- The map-click handler: `st.session_state.selected_coords` is overwritten
with the clicked coordinate only when the click lies within the data bounds;
otherwise (and when there is no click) the stored value persists. -/
def handleClick {σ : Type} (s : Stack σ) (prev : Option (ℚ × ℚ))
    (click : Option (ℚ × ℚ)) : Option (ℚ × ℚ) :=
  match click with
  | none => prev
  | some c => if inBounds s c.1 c.2 then some c else prev

/-!
CSV export.  `app_final.py` builds `df = ts.to_dataframe().reset_index()` and
downloads `df.to_csv(index=False)`.  Because `to_dataframe` includes the
scalar coordinates of the selected point as columns, `df` has the columns
`year, lat, lon, pr`, and the CSV consists of the header line followed by one
comma-separated line per sample, each line terminated by a newline.  Numeric
cells are written by an injective textual numeral (float64 text output in the
source round-trips exactly; the embedding's rationals are rendered as
`num` or `num/den`), and a missing value is written as the empty cell, which
is how pandas writes NaN and reads it back.
-/

/-- The character of a decimal digit. -/
def digitCh (d : Nat) : Char := Char.ofNat (48 + d)

/-- The digit of a decimal digit character, `none` for any other character. -/
def chDigit (c : Char) : Option Nat :=
  if 48 ≤ c.toNat ∧ c.toNat ≤ 57 then some (c.toNat - 48) else none

/-- The little-endian base-10 digits of `n`, with an explicit fuel argument
making the recursion structural; `fuel = n` is always enough. -/
def digitsRev : Nat → Nat → List Nat
  | 0, _ => []
  | fuel + 1, n => if n = 0 then [] else n % 10 :: digitsRev fuel (n / 10)

/-- The little-endian base-10 digits of `n`. -/
def natDigits (n : Nat) : List Nat := digitsRev n n

/-- Decimal rendering of a natural number. -/
def renderNat (n : Nat) : List Char :=
  if n = 0 then ['0'] else ((natDigits n).map digitCh).reverse

/-- Parse a non-empty all-digit string as a natural number. -/
def parseNatChars (cs : List Char) : Option Nat :=
  if cs.isEmpty then none
  else (cs.reverse.mapM chDigit).map (Nat.ofDigits 10)

/-- Decimal rendering of an integer. -/
def renderInt (i : Int) : List Char :=
  if i < 0 then '-' :: renderNat i.natAbs else renderNat i.toNat

/-- Parse an optionally `-`-signed decimal integer. -/
def parseIntChars (cs : List Char) : Option Int :=
  match cs with
  | [] => none
  | c :: rest =>
    if c = '-' then (parseNatChars rest).map (fun n => -(n : Int))
    else (parseNatChars cs).map (fun n => (n : Int))

/-- Split a character list at every occurrence of the separator. -/
def splitOnChar (c : Char) : List Char → List (List Char)
  | [] => [[]]
  | ch :: rest =>
    if ch = c then [] :: splitOnChar c rest
    else
      match splitOnChar c rest with
      | [] => [[ch]]
      | h :: t => (ch :: h) :: t

/-- Injective textual numeral for a rational: `num` when the denominator is
one, `num/den` otherwise. -/
def renderRat (x : ℚ) : List Char :=
  if x.den = 1 then renderInt x.num
  else renderInt x.num ++ '/' :: renderNat x.den

/-- Parse the numeral produced by `renderRat`. -/
def parseRatChars (cs : List Char) : Option ℚ :=
  match splitOnChar '/' cs with
  | [a] => (parseIntChars a).map (fun i => (i : ℚ))
  | [a, b] =>
    match parseIntChars a, parseNatChars b with
    | some i, some n => some ((i : ℚ) / (n : ℚ))
    | _, _ => none
  | _ => none

/-- A value cell: NaN is written as the empty cell. -/
def renderCell (v : Option ℚ) : List Char :=
  match v with
  | none => []
  | some x => renderRat x

/-- Parse a value cell: the empty cell is NaN. -/
def parseCell (cs : List Char) : Option (Option ℚ) :=
  if cs.isEmpty then some none else (parseRatChars cs).map some

/-- Join cell texts with the separator (the inverse of `splitOnChar` when no
cell contains the separator). -/
def joinSep (c : Char) : List (List Char) → List Char
  | [] => []
  | [x] => x
  | x :: y :: t => x ++ c :: joinSep c (y :: t)

/-- One CSV data row: `year,lat,lon,pr`. -/
def rowChars (year : Int) (lat lon : ℚ) (v : Option ℚ) : List Char :=
  joinSep ',' [renderInt year, renderRat lat, renderRat lon, renderCell v]

/-- The CSV header row written by `to_csv(index=False)`. -/
def headerChars : List Char := "year,lat,lon,pr".data

/-- The full CSV text of a yearly resolved series: header plus one row per
sample in stored order, each line terminated by a newline. -/
def toCsvChars (rs : ResolvedSeries Int) : List Char :=
  ((headerChars ::
      rs.series.map (fun tv => rowChars tv.1 rs.lat rs.lon tv.2)).map
    (· ++ ['\n'])).flatten

/-- Parse one CSV data row. -/
def parseRowChars (cs : List Char) : Option (Int × ℚ × ℚ × Option ℚ) :=
  match splitOnChar ',' cs with
  | [a, b, c, d] => do
    let y ← parseIntChars a
    let la ← parseRatChars b
    let lo ← parseRatChars c
    let v ← parseCell d
    pure (y, la, lo, v)
  | _ => none

/-- Reparse a CSV text: check the header, drop the empty fragment after the
final newline, and parse every data row. -/
def parseCsvChars (cs : List Char) : Option (List (Int × ℚ × ℚ × Option ℚ)) :=
  match splitOnChar '\n' cs with
  | [] => none
  | h :: rest =>
    if h = headerChars then
      if rest.getLast? = some [] then rest.dropLast.mapM parseRowChars
      else none
    else none

/-- The CSV text as a string, as handed to the download button. -/
def toCsv (rs : ResolvedSeries Int) : String := ⟨toCsvChars rs⟩

/-- Reparse a CSV string. -/
def parseCsv (s : String) : Option (List (Int × ℚ × ℚ × Option ℚ)) :=
  parseCsvChars s.data

/-!
Concrete fixtures used by the witness and counterexample theorems.
-/

/-- A field with one sample in 2015 and one in 2016, on a 1×1 grid. -/
def exField : GriddedField :=
  { steps := [⟨2015, 0⟩, ⟨2016, 0⟩], lats := [10], lons := [30],
    data := [[[some 4]], [[some 5]]] }

/-- A field on a 2×2 grid with bounds lat ∈ [10, 20], lon ∈ [30, 40]. -/
def exField2 : GriddedField :=
  { steps := [⟨2015, 0⟩], lats := [10, 20], lons := [30, 40],
    data := [[[some 1, some 2], [some 3, none]]] }

/-- A field with zero time steps but non-empty coordinate axes. -/
def exZeroTime : GriddedField :=
  { steps := [], lats := [1], lons := [2], data := [] }

/-- A field whose latitude axis is empty. -/
def exEmptyLat : GriddedField :=
  { steps := [⟨2015, 0⟩], lats := [], lons := [1], data := [[]] }

/-- A field in which year 2015 has only missing samples. -/
def exAllMissing : GriddedField :=
  { steps := [⟨2015, 0⟩, ⟨2015, 1⟩], lats := [10], lons := [30],
    data := [[[none]], [[none]]] }

/-- A concrete yearly resolved series with a fractional coordinate, a negative
value and a missing value. -/
def exSeries : ResolvedSeries Int :=
  { lat := 7 / 2, lon := -5, series := [(2015, some (3 / 2)), (2016, none), (2017, some (-2))] }

/-- The perfectly linear example series of the spec. -/
def exPts : List (ℚ × ℚ) := [(2000, 1), (2001, 2), (2002, 3)]

/-!
Helper lemmas.
-/

theorem nearestPair_eq_none_iff (axis : List ℚ) (q : ℚ) :
    nearestPair axis q = none ↔ axis = [] := by
  unfold nearestPair
  cases h : axis.enum with
  | nil => simp [List.enum_eq_nil.mp h]
  | cons p rest =>
    have : axis ≠ [] := by
      intro hax
      rw [hax] at h
      simp at h
    simp [this]

theorem zip_map_length {α β : Type} (steps : List α) (data : List Grid)
    (f : Grid → β) (h : data.length = steps.length) :
    (steps.zip (data.map f)).length = steps.length := by
  simp [List.length_zip, h]

theorem absDist_eq_abs (a b : ℚ) : absDist a b = |a - b| := by
  unfold absDist
  rcases le_total b a with h | h
  · rw [if_pos h, abs_of_nonneg (by linarith)]
  · by_cases he : b ≤ a
    · rw [if_pos he, abs_of_nonneg (by linarith)]
    · rw [if_neg he, abs_of_nonpos (by linarith)]
      ring

theorem nearestGo_mem (q : ℚ) (b : Nat × ℚ) (l : List (Nat × ℚ)) :
    nearestGo q b l ∈ b :: l := by
  induction l generalizing b with
  | nil => exact List.mem_singleton.mpr rfl
  | cons p rest ih =>
    rw [nearestGo]
    by_cases h : absDist p.2 q ≤ absDist b.2 q
    · rw [if_pos h]
      exact List.mem_cons_of_mem b (ih p)
    · rw [if_neg h]
      rcases List.mem_cons.mp (ih b) with h' | h'
      · rw [h']
        exact List.mem_cons_self _ _
      · exact List.mem_cons_of_mem b (List.mem_cons_of_mem p h')

theorem nearestGo_min (q : ℚ) (b : Nat × ℚ) (l : List (Nat × ℚ)) :
    ∀ p ∈ b :: l, absDist (nearestGo q b l).2 q ≤ absDist p.2 q := by
  induction l generalizing b with
  | nil =>
    intro p hp
    rw [List.mem_singleton.mp hp]
    exact le_refl _
  | cons pp rest ih =>
    intro p hp
    rw [nearestGo]
    by_cases h : absDist pp.2 q ≤ absDist b.2 q
    · rw [if_pos h]
      rcases List.mem_cons.mp hp with h' | h'
      · rw [h']
        exact le_trans (ih pp pp (List.mem_cons_self _ _)) h
      · rcases List.mem_cons.mp h' with h'' | h''
        · rw [h'']
          exact ih pp pp (List.mem_cons_self _ _)
        · exact ih pp p (List.mem_cons_of_mem pp h'')
    · rw [if_neg h]
      rcases List.mem_cons.mp hp with h' | h'
      · rw [h']
        exact ih b b (List.mem_cons_self _ _)
      · rcases List.mem_cons.mp h' with h'' | h''
        · rw [h'']
          exact le_trans (ih b b (List.mem_cons_self _ _)) (le_of_not_le h)
        · exact ih b p (List.mem_cons_of_mem b h'')

theorem nearestGo_tie (q : ℚ) (b : Nat × ℚ) (l : List (Nat × ℚ))
    (hpw : (b :: l).Pairwise (fun s t => s.2 < t.2)) :
    ∀ p ∈ b :: l, absDist p.2 q = absDist (nearestGo q b l).2 q →
      p.2 ≤ (nearestGo q b l).2 := by
  induction l generalizing b with
  | nil =>
    intro p hp _
    rw [List.mem_singleton.mp hp]
    exact le_refl _
  | cons pp rest ih =>
    intro p hp hdist
    rw [List.pairwise_cons] at hpw
    have hpwtail : (pp :: rest).Pairwise (fun s t => s.2 < t.2) := hpw.2
    have hpwb : (b :: rest).Pairwise (fun s t => s.2 < t.2) := by
      rw [List.pairwise_cons]
      exact ⟨fun t ht => hpw.1 t (List.mem_cons_of_mem pp ht),
        (List.pairwise_cons.mp hpw.2).2⟩
    rw [nearestGo] at hdist ⊢
    by_cases h : absDist pp.2 q ≤ absDist b.2 q
    · rw [if_pos h] at hdist ⊢
      rcases List.mem_cons.mp hp with h' | h'
      · subst h'
        have hres := nearestGo_mem q pp rest
        exact le_of_lt (hpw.1 _ hres)
      · exact ih pp hpwtail p h' hdist
    · rw [if_neg h] at hdist ⊢
      rcases List.mem_cons.mp hp with h' | h'
      · rw [h'] at hdist ⊢
        exact ih b hpwb b (List.mem_cons_self _ _) hdist
      · rcases List.mem_cons.mp h' with h'' | h''
        · exfalso
          subst h''
          have hmin : absDist (nearestGo q b rest).2 q ≤ absDist b.2 q :=
            nearestGo_min q b rest b (List.mem_cons_self _ _)
          have hlt : absDist b.2 q < absDist (nearestGo q b rest).2 q := by
            rw [← hdist]
            exact lt_of_not_le h
          exact absurd (lt_of_le_of_lt hmin hlt) (lt_irrefl _)
        · exact ih b hpwb p (List.mem_cons_of_mem b h'') hdist

theorem maxOpt_none_right (c : Option ℚ) : maxOpt c none = c := by
  cases c <;> rfl

theorem listMaxOpt_all_none (l : List (Option ℚ)) (h : ∀ x ∈ l, x = none) :
    listMaxOpt l = none := by
  induction l with
  | nil => rfl
  | cons a t ih =>
    have ha := h a (List.mem_cons_self a t)
    have ht := ih fun x hx => h x (List.mem_cons_of_mem a hx)
    simp [listMaxOpt] at ht ⊢
    rw [ha, ht]
    rfl

theorem mem_insertYear (a y : Int) (l : List Int) :
    a ∈ insertYear y l ↔ a = y ∨ a ∈ l := by
  induction l with
  | nil => simp [insertYear]
  | cons z rest ih =>
    by_cases h1 : y < z
    · simp [insertYear, h1]
    · by_cases h2 : y = z
      · subst h2
        simp [insertYear, h1]
      · simp [insertYear, h1, h2, ih]
        tauto

theorem sorted_insertYear (y : Int) (l : List Int) (h : l.Sorted (· < ·)) :
    (insertYear y l).Sorted (· < ·) := by
  induction l with
  | nil => simp [insertYear]
  | cons z rest ih =>
    rw [List.sorted_cons] at h
    by_cases h1 : y < z
    · rw [insertYear, if_pos h1, List.sorted_cons]
      refine ⟨?_, List.sorted_cons.mpr h⟩
      intro b hb
      rcases List.mem_cons.mp hb with hb | hb
      · rw [hb]; exact h1
      · exact lt_trans h1 (h.1 b hb)
    · by_cases h2 : y = z
      · rw [insertYear, if_neg h1, if_pos h2]
        exact List.sorted_cons.mpr h
      · rw [insertYear, if_neg h1, if_neg h2, List.sorted_cons]
        refine ⟨?_, ih h.2⟩
        intro b hb
        rcases (mem_insertYear b y rest).mp hb with hb | hb
        · rw [hb]
          omega
        · exact h.1 b hb

theorem mem_sortedUniq (a : Int) (l : List Int) : a ∈ sortedUniq l ↔ a ∈ l := by
  induction l with
  | nil => simp [sortedUniq]
  | cons z rest ih =>
    show a ∈ insertYear z (sortedUniq rest) ↔ _
    rw [mem_insertYear, ih]
    simp

theorem sorted_sortedUniq (l : List Int) : (sortedUniq l).Sorted (· < ·) := by
  induction l with
  | nil => simp [sortedUniq]
  | cons z rest ih => exact sorted_insertYear z (sortedUniq rest) ih

theorem mkGrid_shape (n m : Nat) (f : Nat → Nat → Option ℚ) :
    (mkGrid n m f).map List.length = List.replicate n m := by
  simp [mkGrid, List.map_map]
  have h : ∀ i ∈ List.range n,
      (List.length ∘ fun i' => (List.range m).map fun j => f i' j) i = m := by
    simp
  rw [List.map_congr_left h, List.map_const', List.length_range]

theorem getCell_mkGrid (n m : Nat) (f : Nat → Nat → Option ℚ) (i j : Nat) :
    getCell (mkGrid n m f) i j = if i < n ∧ j < m then f i j else none := by
  unfold getCell mkGrid
  by_cases hi : i < n
  · by_cases hj : j < m
    · simp [List.getD_eq_getElem?_getD, List.getElem?_range, hi, hj]
    · have hj' : m ≤ j := not_lt.mp hj
      simp [List.getD_eq_getElem?_getD, List.getElem?_range, hi, hj,
        List.getElem?_eq_none (l := List.range m) (by simpa using hj')]
  · have hi' : n ≤ i := not_lt.mp hi
    simp [List.getD_eq_getElem?_getD, hi,
      List.getElem?_eq_none (l := List.range n) (by simpa using hi')]

theorem sumBy_congr (pts : List (ℚ × ℚ)) (f g : ℚ × ℚ → ℚ)
    (h : ∀ p ∈ pts, f p = g p) : sumBy pts f = sumBy pts g := by
  unfold sumBy
  rw [List.map_congr_left h]

theorem sumBy_add (pts : List (ℚ × ℚ)) (f g : ℚ × ℚ → ℚ) :
    sumBy pts (fun p => f p + g p) = sumBy pts f + sumBy pts g :=
  List.sum_map_add

theorem sumBy_mul_left (pts : List (ℚ × ℚ)) (c : ℚ) (f : ℚ × ℚ → ℚ) :
    sumBy pts (fun p => c * f p) = c * sumBy pts f :=
  List.sum_map_mul_left pts f c

theorem sumBy_const (pts : List (ℚ × ℚ)) (c : ℚ) :
    sumBy pts (fun _ => c) = nQ pts * c := by
  unfold sumBy nQ
  induction pts with
  | nil => simp
  | cons p rest ih =>
    simp [ih]
    ring

theorem sumBy_resid (pts : List (ℚ × ℚ)) (s t : ℚ) :
    sumBy pts (fun p => p.2 - (s * p.1 + t)) =
      sumBy pts (fun p => p.2) - s * sumBy pts (fun p => p.1) - nQ pts * t := by
  have h : ∀ p ∈ pts, p.2 - (s * p.1 + t) = p.2 + ((-s) * p.1 + (-t)) := by
    intro p _
    ring
  rw [sumBy_congr pts _ _ h, sumBy_add, sumBy_add, sumBy_mul_left, sumBy_const]
  ring

theorem sumBy_xresid (pts : List (ℚ × ℚ)) (s t : ℚ) :
    sumBy pts (fun p => p.1 * (p.2 - (s * p.1 + t))) =
      sumBy pts (fun p => p.1 * p.2) - s * sumBy pts (fun p => p.1 ^ 2)
        - t * sumBy pts (fun p => p.1) := by
  have h : ∀ p ∈ pts, p.1 * (p.2 - (s * p.1 + t)) =
      p.1 * p.2 + ((-s) * p.1 ^ 2 + (-t) * p.1) := by
    intro p _
    ring
  rw [sumBy_congr pts _ _ h, sumBy_add, sumBy_add, sumBy_mul_left,
    sumBy_mul_left]
  ring

theorem nQ_ne_zero (pts : List (ℚ × ℚ)) (h : pts ≠ []) : nQ pts ≠ 0 := by
  unfold nQ
  rw [Nat.cast_ne_zero]
  intro hl
  exact h (List.length_eq_zero.mp hl)

theorem lsqDen_ne_zero_ne_nil (pts : List (ℚ × ℚ)) (h : lsqDen pts ≠ 0) :
    pts ≠ [] := by
  intro hnil
  exact h (by simp [hnil, lsqDen, nQ, sumBy])

theorem normal_eq_one (pts : List (ℚ × ℚ)) (h : lsqDen pts ≠ 0) :
    sumBy pts (fun p => p.2 - (fitSlope pts * p.1 + fitIntercept pts)) = 0 := by
  have hn : nQ pts ≠ 0 := nQ_ne_zero pts (lsqDen_ne_zero_ne_nil pts h)
  rw [sumBy_resid, fitIntercept]
  field_simp

theorem normal_eq_two (pts : List (ℚ × ℚ)) (h : lsqDen pts ≠ 0) :
    sumBy pts (fun p => p.1 * (p.2 - (fitSlope pts * p.1 + fitIntercept pts)))
      = 0 := by
  have hn : nQ pts ≠ 0 := nQ_ne_zero pts (lsqDen_ne_zero_ne_nil pts h)
  rw [sumBy_xresid, fitIntercept, fitSlope]
  rw [lsqDen] at h ⊢
  field_simp
  ring

theorem sse_decomposition (pts : List (ℚ × ℚ)) (a b s t : ℚ) :
    SSE pts a b =
      SSE pts s t
        + 2 * (s - a) * sumBy pts (fun p => p.1 * (p.2 - (s * p.1 + t)))
        + 2 * (t - b) * sumBy pts (fun p => p.2 - (s * p.1 + t))
        + sumBy pts (fun p => ((s - a) * p.1 + (t - b)) ^ 2) := by
  unfold SSE
  have h : ∀ p ∈ pts, (p.2 - (a * p.1 + b)) ^ 2 =
      (p.2 - (s * p.1 + t)) ^ 2
        + ((2 * (s - a)) * (p.1 * (p.2 - (s * p.1 + t)))
          + ((2 * (t - b)) * (p.2 - (s * p.1 + t))
            + ((s - a) * p.1 + (t - b)) ^ 2)) := by
    intro p _
    ring
  rw [sumBy_congr pts _ _ h, sumBy_add, sumBy_add, sumBy_add, sumBy_mul_left,
    sumBy_mul_left]
  ring

theorem sumBy_sq_nonneg (pts : List (ℚ × ℚ)) (f : ℚ × ℚ → ℚ) :
    0 ≤ sumBy pts (fun p => f p ^ 2) := by
  apply List.sum_nonneg
  intro x hx
  rcases List.mem_map.mp hx with ⟨p, _, hp⟩
  rw [← hp]
  exact sq_nonneg _

theorem splitOnChar_ne_nil (c : Char) (l : List Char) :
    splitOnChar c l ≠ [] := by
  cases l with
  | nil => simp [splitOnChar]
  | cons ch rest =>
    rw [splitOnChar]
    by_cases h : ch = c
    · simp [h]
    · rw [if_neg h]
      cases hs : splitOnChar c rest <;> simp

theorem splitOnChar_no (c : Char) (l : List Char) (h : c ∉ l) :
    splitOnChar c l = [l] := by
  induction l with
  | nil => rfl
  | cons ch rest ih =>
    have hch : ch ≠ c := fun he => h (he ▸ List.mem_cons_self ch rest)
    have hrest : c ∉ rest := fun hm => h (List.mem_cons_of_mem ch hm)
    rw [splitOnChar, if_neg hch, ih hrest]

theorem splitOnChar_append_cons (c : Char) (l r : List Char) (h : c ∉ l) :
    splitOnChar c (l ++ c :: r) = l :: splitOnChar c r := by
  induction l with
  | nil =>
    simp [splitOnChar]
  | cons ch rest ih =>
    have hch : ch ≠ c := fun he => h (he ▸ List.mem_cons_self ch rest)
    have hrest : c ∉ rest := fun hm => h (List.mem_cons_of_mem ch hm)
    rw [List.cons_append, splitOnChar, if_neg hch, ih hrest]

theorem splitOnChar_terminated (c : Char) (lines : List (List Char))
    (h : ∀ l ∈ lines, c ∉ l) :
    splitOnChar c ((lines.map (· ++ [c])).flatten) = lines ++ [[]] := by
  induction lines with
  | nil => rfl
  | cons l rest ih =>
    have hl : c ∉ l := h l (List.mem_cons_self l rest)
    have hrest : ∀ x ∈ rest, c ∉ x := fun x hx => h x (List.mem_cons_of_mem l hx)
    rw [List.map_cons, List.flatten_cons]
    have : (l ++ [c]) ++ (rest.map (· ++ [c])).flatten =
        l ++ c :: (rest.map (· ++ [c])).flatten := by
      simp
    rw [this, splitOnChar_append_cons c l _ hl, ih hrest]
    rfl

theorem joinSep_split (c : Char) (cells : List (List Char))
    (hne : cells ≠ []) (h : ∀ x ∈ cells, c ∉ x) :
    splitOnChar c (joinSep c cells) = cells := by
  induction cells with
  | nil => exact absurd rfl hne
  | cons x rest ih =>
    cases rest with
    | nil =>
      rw [joinSep]
      exact splitOnChar_no c x (h x (List.mem_cons_self x []))
    | cons y t =>
      rw [joinSep, splitOnChar_append_cons c x _ (h x (List.mem_cons_self x _)),
        ih (by simp) (fun z hz => h z (List.mem_cons_of_mem x hz))]

theorem digitsRev_lt (fuel n : Nat) : ∀ d ∈ digitsRev fuel n, d < 10 := by
  induction fuel generalizing n with
  | zero => intro d hd; simp [digitsRev] at hd
  | succ fuel ih =>
    intro d hd
    rw [digitsRev] at hd
    by_cases h : n = 0
    · rw [if_pos h] at hd; simp at hd
    · rw [if_neg h] at hd
      rcases List.mem_cons.mp hd with h' | h'
      · rw [h']; exact Nat.mod_lt n (by norm_num)
      · exact ih (n / 10) d h'

theorem ofDigits_digitsRev (fuel n : Nat) (h : n ≤ fuel) :
    Nat.ofDigits 10 (digitsRev fuel n) = n := by
  induction fuel generalizing n with
  | zero =>
    have : n = 0 := Nat.le_zero.mp h
    simp [digitsRev, this]
  | succ fuel ih =>
    rw [digitsRev]
    by_cases hn : n = 0
    · simp [hn, Nat.ofDigits]
    · rw [if_neg hn, Nat.ofDigits_cons]
      have hdiv : n / 10 ≤ fuel := by
        have h1 : n / 10 < n := Nat.div_lt_self (Nat.pos_of_ne_zero hn) (by norm_num)
        omega
      rw [ih (n / 10) hdiv]
      omega

theorem ofDigits_natDigits (n : Nat) : Nat.ofDigits 10 (natDigits n) = n :=
  ofDigits_digitsRev n n (le_refl n)

theorem natDigits_lt (n : Nat) : ∀ d ∈ natDigits n, d < 10 :=
  digitsRev_lt n n

theorem natDigits_ne_nil (n : Nat) (h : n ≠ 0) : natDigits n ≠ [] := by
  unfold natDigits
  cases n with
  | zero => exact absurd rfl h
  | succ m =>
    rw [digitsRev, if_neg h]
    simp

theorem chDigit_digitCh : ∀ d, d < 10 → chDigit (digitCh d) = some d := by
  decide

theorem digitCh_bounds : ∀ d, d < 10 →
    48 ≤ (digitCh d).toNat ∧ (digitCh d).toNat ≤ 57 := by
  decide

theorem renderNat_chars (n : Nat) :
    ∀ ch ∈ renderNat n, 48 ≤ ch.toNat ∧ ch.toNat ≤ 57 := by
  unfold renderNat
  by_cases h : n = 0
  · rw [if_pos h]
    decide
  · rw [if_neg h]
    intro ch hch
    rw [List.mem_reverse] at hch
    rcases List.mem_map.mp hch with ⟨d, hd, hik⟩
    rw [← hik]
    exact digitCh_bounds d (natDigits_lt n d hd)

theorem renderNat_ne_nil (n : Nat) : renderNat n ≠ [] := by
  unfold renderNat
  by_cases h : n = 0
  · simp [h]
  · rw [if_neg h]
    simp
    exact natDigits_ne_nil n h

theorem mapM_map_some {α β γ : Type} (l : List α) (g : α → β) (f : β → Option γ)
    (k : α → γ) (h : ∀ x ∈ l, f (g x) = some (k x)) :
    (l.map g).mapM f = some (l.map k) := by
  induction l with
  | nil => rfl
  | cons x rest ih =>
    have hx := h x (List.mem_cons_self x rest)
    have hrest := ih fun z hz => h z (List.mem_cons_of_mem x hz)
    rw [List.map_cons, List.map_cons, List.mapM_cons, hx, hrest]
    rfl

theorem parseNat_renderNat (n : Nat) : parseNatChars (renderNat n) = some n := by
  unfold parseNatChars
  rw [if_neg (by simpa [List.isEmpty_iff] using renderNat_ne_nil n)]
  unfold renderNat
  by_cases h : n = 0
  · rw [if_pos h]
    subst h
    decide
  · rw [if_neg h, List.reverse_reverse]
    rw [mapM_map_some (natDigits n) digitCh chDigit id
      (fun d hd => chDigit_digitCh d (natDigits_lt n d hd))]
    simp [ofDigits_natDigits]

theorem renderInt_chars (i : Int) :
    ∀ ch ∈ renderInt i, ch = '-' ∨ (48 ≤ ch.toNat ∧ ch.toNat ≤ 57) := by
  unfold renderInt
  by_cases h : i < 0
  · rw [if_pos h]
    intro ch hch
    rcases List.mem_cons.mp hch with h' | h'
    · exact Or.inl h'
    · exact Or.inr (renderNat_chars _ ch h')
  · rw [if_neg h]
    intro ch hch
    exact Or.inr (renderNat_chars _ ch hch)

theorem renderInt_ne_nil (i : Int) : renderInt i ≠ [] := by
  unfold renderInt
  by_cases h : i < 0
  · simp [h]
  · rw [if_neg h]
    exact renderNat_ne_nil _

theorem parseInt_renderInt (i : Int) : parseIntChars (renderInt i) = some i := by
  by_cases h : i < 0
  · rw [renderInt, if_pos h]
    rw [parseIntChars]
    rw [if_pos rfl, parseNat_renderNat]
    simp [abs_of_neg h]
  · rw [renderInt, if_neg h]
    cases hr : renderNat i.toNat with
    | nil => exact absurd hr (renderNat_ne_nil _)
    | cons c rest =>
      have hc : c ≠ '-' := by
        have hb := renderNat_chars i.toNat c (hr ▸ List.mem_cons_self c rest)
        intro he
        rw [he] at hb
        simp at hb
      rw [parseIntChars, if_neg hc, ← hr, parseNat_renderNat]
      have hcast : (i.toNat : Int) = i := Int.toNat_of_nonneg (not_lt.mp h)
      simp [hcast]

theorem renderInt_no_slash (i : Int) : '/' ∉ renderInt i := by
  intro hm
  rcases renderInt_chars i '/' hm with h | h
  · exact absurd h (by decide)
  · revert h
    decide

theorem renderNat_no_slash (n : Nat) : '/' ∉ renderNat n := by
  intro hm
  have hb := renderNat_chars n '/' hm
  revert hb
  decide

theorem intCast_of_den_one (x : ℚ) (h : x.den = 1) : ((x.num : ℚ)) = x := by
  conv_rhs => rw [← Rat.num_div_den x]
  rw [h]
  norm_num

theorem parseRat_renderRat (x : ℚ) : parseRatChars (renderRat x) = some x := by
  unfold renderRat parseRatChars
  by_cases h : x.den = 1
  · rw [if_pos h, splitOnChar_no '/' _ (renderInt_no_slash x.num)]
    simp [parseInt_renderInt, intCast_of_den_one x h]
  · rw [if_neg h,
      splitOnChar_append_cons '/' _ _ (renderInt_no_slash x.num),
      splitOnChar_no '/' _ (renderNat_no_slash x.den)]
    simp [parseInt_renderInt, parseNat_renderNat, Rat.num_div_den]

theorem renderRat_ne_nil (x : ℚ) : renderRat x ≠ [] := by
  unfold renderRat
  by_cases h : x.den = 1
  · rw [if_pos h]
    exact renderInt_ne_nil _
  · rw [if_neg h]
    intro hm
    exact renderInt_ne_nil x.num (List.append_eq_nil.mp hm).1

theorem parseCell_renderCell (v : Option ℚ) :
    parseCell (renderCell v) = some v := by
  cases v with
  | none => rfl
  | some x =>
    rw [renderCell, parseCell,
      if_neg (by simpa [List.isEmpty_iff] using renderRat_ne_nil x),
      parseRat_renderRat]
    rfl

theorem renderRat_chars (x : ℚ) :
    ∀ ch ∈ renderRat x, ch = '-' ∨ ch = '/' ∨ (48 ≤ ch.toNat ∧ ch.toNat ≤ 57) := by
  unfold renderRat
  by_cases h : x.den = 1
  · rw [if_pos h]
    intro ch hch
    rcases renderInt_chars x.num ch hch with h' | h'
    · exact Or.inl h'
    · exact Or.inr (Or.inr h')
  · rw [if_neg h]
    intro ch hch
    rcases List.mem_append.mp hch with h' | h'
    · rcases renderInt_chars x.num ch h' with h'' | h''
      · exact Or.inl h''
      · exact Or.inr (Or.inr h'')
    · rcases List.mem_cons.mp h' with h'' | h''
      · exact Or.inr (Or.inl h'')
      · exact Or.inr (Or.inr (renderNat_chars x.den ch h''))

theorem renderInt_no_comma (i : Int) : ',' ∉ renderInt i := by
  intro hm
  rcases renderInt_chars i ',' hm with h | h
  · exact absurd h (by decide)
  · revert h
    decide

theorem renderRat_no_comma (x : ℚ) : ',' ∉ renderRat x := by
  intro hm
  rcases renderRat_chars x ',' hm with h | h | h
  · exact absurd h (by decide)
  · exact absurd h (by decide)
  · revert h
    decide

theorem renderCell_no_comma (v : Option ℚ) : ',' ∉ renderCell v := by
  cases v with
  | none => simp [renderCell]
  | some x => exact renderRat_no_comma x

theorem renderInt_no_newline (i : Int) : '\n' ∉ renderInt i := by
  intro hm
  rcases renderInt_chars i '\n' hm with h | h
  · exact absurd h (by decide)
  · revert h
    decide

theorem renderRat_no_newline (x : ℚ) : '\n' ∉ renderRat x := by
  intro hm
  rcases renderRat_chars x '\n' hm with h | h | h
  · exact absurd h (by decide)
  · exact absurd h (by decide)
  · revert h
    decide

theorem renderCell_no_newline (v : Option ℚ) : '\n' ∉ renderCell v := by
  cases v with
  | none => simp [renderCell]
  | some x => exact renderRat_no_newline x

theorem joinSep_not_mem (c c' : Char) (cells : List (List Char))
    (hne : c' ≠ c) (h : ∀ x ∈ cells, c' ∉ x) : c' ∉ joinSep c cells := by
  induction cells with
  | nil => simp [joinSep]
  | cons x rest ih =>
    cases rest with
    | nil =>
      rw [joinSep]
      exact h x (List.mem_cons_self x [])
    | cons y t =>
      rw [joinSep]
      intro hm
      rcases List.mem_append.mp hm with h' | h'
      · exact h x (List.mem_cons_self x _) h'
      · rcases List.mem_cons.mp h' with h'' | h''
        · exact hne h''
        · exact ih (fun z hz => h z (List.mem_cons_of_mem x hz)) h''

theorem rowChars_no_newline (y : Int) (la lo : ℚ) (v : Option ℚ) :
    '\n' ∉ rowChars y la lo v := by
  apply joinSep_not_mem _ _ _ (by decide)
  intro x hx
  rcases List.mem_cons.mp hx with h | hx'
  · rw [h]; exact renderInt_no_newline y
  rcases List.mem_cons.mp hx' with h | hx''
  · rw [h]; exact renderRat_no_newline la
  rcases List.mem_cons.mp hx'' with h | hx'''
  · rw [h]; exact renderRat_no_newline lo
  rcases List.mem_cons.mp hx''' with h | hx4
  · rw [h]; exact renderCell_no_newline v
  · simp at hx4

theorem headerChars_no_newline : '\n' ∉ headerChars := by decide

theorem parseRow_rowChars (y : Int) (la lo : ℚ) (v : Option ℚ) :
    parseRowChars (rowChars y la lo v) = some (y, la, lo, v) := by
  unfold parseRowChars rowChars
  rw [joinSep_split ',' _ (by simp) ?cells]
  case cells =>
    intro x hx
    rcases List.mem_cons.mp hx with h | hx'
    · rw [h]; exact renderInt_no_comma y
    rcases List.mem_cons.mp hx' with h | hx''
    · rw [h]; exact renderRat_no_comma la
    rcases List.mem_cons.mp hx'' with h | hx'''
    · rw [h]; exact renderRat_no_comma lo
    rcases List.mem_cons.mp hx''' with h | hx4
    · rw [h]; exact renderCell_no_comma v
    · simp at hx4
  simp [parseInt_renderInt, parseRat_renderRat, parseCell_renderCell]

theorem parseCsv_toCsv (rs : ResolvedSeries Int) :
    parseCsv (toCsv rs) =
      some (rs.series.map fun tv => (tv.1, rs.lat, rs.lon, tv.2)) := by
  show parseCsvChars (toCsvChars rs) = _
  unfold toCsvChars parseCsvChars
  rw [splitOnChar_terminated '\n' _ ?nolines]
  case nolines =>
    intro l hl
    rcases List.mem_cons.mp hl with h | h
    · rw [h]; exact headerChars_no_newline
    · rcases List.mem_map.mp h with ⟨tv, _, htv⟩
      rw [← htv]
      exact rowChars_no_newline tv.1 rs.lat rs.lon tv.2
  rw [List.cons_append]
  show (if headerChars = headerChars then _ else none) = _
  rw [if_pos rfl, List.getLast?_concat, if_pos rfl, List.dropLast_concat]
  exact mapM_map_some rs.series _ parseRowChars _
    (fun tv _ => parseRow_rowChars tv.1 rs.lat rs.lon tv.2)

/-!
Claim theorems.
-/

/-- Claim C10 (confirmed): a map click outside the field's latitude/longitude
bounds leaves the stored selected coordinate unchanged (the previous selection
or its absence persists), and only in-bounds clicks overwrite it.  The last
two conjuncts characterise out-of-bounds numerically: a coordinate below the
axis minimum or above the axis maximum fails the bounds check. -/
theorem click_out_of_bounds_persists {σ : Type} (s : Stack σ)
    (prev : Option (ℚ × ℚ)) (clat clon : ℚ) :
    handleClick s prev none = prev ∧
    (inBounds s clat clon = false → handleClick s prev (some (clat, clon)) = prev) ∧
    (inBounds s clat clon = true →
      handleClick s prev (some (clat, clon)) = some (clat, clon)) ∧
    (∀ a b, s.lats.min? = some a → s.lats.max? = some b →
      clat < a ∨ b < clat → inBounds s clat clon = false) ∧
    (∀ c d, s.lons.min? = some c → s.lons.max? = some d →
      clon < c ∨ d < clon → inBounds s clat clon = false) := by
  refine ⟨rfl, ?_, ?_, ?_, ?_⟩
  · intro h
    simp [handleClick, h]
  · intro h
    simp [handleClick, h]
  · intro a b hmin hmax hout
    unfold inBounds
    rw [hmin, hmax]
    cases s.lons.min? with
    | none => rfl
    | some c =>
      cases s.lons.max? with
      | none => rfl
      | some d =>
        rcases hout with h | h
        · simp [not_le.mpr h]
        · simp [not_le.mpr h]
  · intro c d hmin hmax hout
    unfold inBounds
    cases s.lats.min? with
    | none => rfl
    | some a =>
      cases s.lats.max? with
      | none => rfl
      | some b =>
        rw [hmin, hmax]
        rcases hout with h | h
        · simp [not_le.mpr h]
        · simp [not_le.mpr h]

/-- Claim C10 witness: with bounds lat ∈ [10, 20], lon ∈ [30, 40], the
out-of-bounds click (50, 35) leaves the stored coordinate (12, 34) in place. -/
theorem click_out_of_bounds_persists_witness :
    handleClick exField2 (some (12, 34)) (some (50, 35)) = some (12, 34) :=
  (click_out_of_bounds_persists exField2 (some (12, 34)) 50 35).2.1 (by decide)

/-- Claim C4 counterexample: the claim says `resolvePoint` fails with
`LookupError` whenever the field has zero time steps; on a field with zero
time steps but non-empty coordinate axes the selection succeeds (xarray's
`sel` along lat/lon does not touch the time dimension), returning the nearest
cell and an empty series. -/
theorem resolve_zero_time_steps_ok :
    (resolvePoint exZeroTime 0 0).isOk = true ∧
    resolvePoint exZeroTime 0 0 =
      .ok { lat := 1, lon := 2, series := [] } := by
  constructor
  · rfl
  · rfl

/-- Claim C4 as amended (the zero-time-steps condition removed):
`resolvePoint` fails — with the `KeyError` (a `LookupError`) that xarray's
`sel(method='nearest')` raises — exactly when the latitude or the longitude
coordinate sequence is empty; on non-empty axes it succeeds, and the series it
returns has one entry per time step (in particular, zero time steps yield an
empty series, not an error). -/
theorem resolve_err_iff_empty_axis {σ : Type} (s : Stack σ) (qlat qlon : ℚ) :
    (resolvePoint s qlat qlon = .error .keyError ↔ s.lats = [] ∨ s.lons = []) ∧
    (∀ rs, resolvePoint s qlat qlon = .ok rs → s.data.length = s.steps.length →
      rs.series.length = s.steps.length) := by
  constructor
  · unfold resolvePoint
    cases h1 : nearestPair s.lats qlat with
    | none =>
      simp [(nearestPair_eq_none_iff s.lats qlat).mp h1]
    | some pi =>
      have hlat : ¬ s.lats = [] := by
        intro hax
        rw [(nearestPair_eq_none_iff s.lats qlat).mpr hax] at h1
        exact Option.noConfusion h1
      cases h2 : nearestPair s.lons qlon with
      | none =>
        simp [(nearestPair_eq_none_iff s.lons qlon).mp h2, hlat]
      | some pj =>
        have hlon : ¬ s.lons = [] := by
          intro hax
          rw [(nearestPair_eq_none_iff s.lons qlon).mpr hax] at h2
          exact Option.noConfusion h2
        simp [hlat, hlon]
  · intro rs hok hlen
    unfold resolvePoint at hok
    cases h1 : nearestPair s.lats qlat with
    | none => rw [h1] at hok; exact Except.noConfusion hok
    | some pi =>
      cases h2 : nearestPair s.lons qlon with
      | none => rw [h1, h2] at hok; exact Except.noConfusion hok
      | some pj =>
        rw [h1, h2] at hok
        have := Except.ok.inj hok
        rw [← this]
        exact zip_map_length _ _ _ hlen

/-- Claim C4 witness: on the field with empty latitude axis the resolution
fails with the `KeyError`; on a 1×1 field the returned series has one entry
per time step. -/
theorem resolve_err_iff_empty_axis_witness :
    resolvePoint exEmptyLat 0 0 = .error .keyError ∧
    (resolvePoint exField 10 30).isOk = true := by
  constructor
  · exact (resolve_err_iff_empty_axis exEmptyLat 0 0).1.mpr (Or.inl rfl)
  · decide

/-- Claim C2 counterexample: no `InsufficientDataError` exists in the program
and nothing is raised on a single-point input.  The statistics block
(pandas `.max/.min/.mean/.std`) returns plain values — `.std()` yields NaN for
one point — and `np.polyfit` on a single point returns a rank-deficient
least-squares solution instead of raising. -/
theorem single_point_stats_no_error :
    summarizeStatistics [some 1] =
      { max := some 1, min := some 1, mean := some 1, stddev := none } ∧
    (fitLinearTrend [((2000 : ℚ), (1 : ℚ))]).isOk = true := by
  constructor
  · simp [summarizeStatistics, nonMissing, List.max?, List.min?]
  · simp only [fitLinearTrend]
    norm_num [lsqDen, nQ, sumBy, Except.isOk, Except.toBool]

/-- Claim C2 as amended: on a single-point series `summarizeStatistics`
returns max = min = mean = the value and NaN (missing) for the standard
deviation, raising nothing; `fitLinearTrend` raises only on an empty input —
numpy's `TypeError`, not an `InsufficientDataError` — and on a single point
`(x, y)` with `x ≠ 0` it returns the rank-deficient minimum-norm fit
`(y/(2x), y/2)` without raising. -/
theorem single_point_degrades (v x y : ℚ) (hx : x ≠ 0) :
    summarizeStatistics [some v] =
      { max := some v, min := some v, mean := some v, stddev := none } ∧
    fitLinearTrend [] = .error .typeError ∧
    fitLinearTrend [(x, y)] = .ok (y / (2 * x), y / 2) := by
  refine ⟨?_, rfl, ?_⟩
  · simp [summarizeStatistics, nonMissing, List.max?, List.min?]
  · have hden : lsqDen [(x, y)] = 0 := by
      simp [lsqDen, nQ, sumBy]
    simp only [fitLinearTrend]
    rw [if_pos hden, if_neg hx]
    simp [sumBy, nQ]

/-- Claim C2 witness: the amended statement at `v = 1`, `(x, y) = (2000, 1)`. -/
theorem single_point_degrades_witness :
    summarizeStatistics [some 1] =
      { max := some 1, min := some 1, mean := some 1, stddev := none } ∧
    fitLinearTrend [] = .error .typeError ∧
    fitLinearTrend [((2000 : ℚ), (1 : ℚ))] = .ok (1 / 4000, 1 / 2) := by
  have h := single_point_degrades 1 2000 1 (by norm_num)
  refine ⟨h.1, h.2.1, ?_⟩
  rw [h.2.2]
  norm_num

/-- Claim C3 counterexample: with fewer than two non-missing values the
statistics block does not fail with a reported `InsufficientDataError` (no
such error exists in the program); pandas' `.std()` silently returns NaN
while max/min/mean are computed from the single non-missing value. -/
theorem few_values_stats_no_error :
    summarizeStatistics [none, some 5, none] =
      { max := some 5, min := some 5, mean := some 5, stddev := none } := by
  simp [summarizeStatistics, nonMissing, List.max?, List.min?]

/-- Claim C3 as amended: `summarizeStatistics` computes max, min, mean and
standard deviation over the non-missing values only; with fewer than two
non-missing values the standard deviation degrades to NaN (missing) rather
than raising any error, and max, min and mean degrade gracefully to the
single value, or to NaN on an empty sequence — no unguarded exception is
thrown (the function is total). -/
theorem stats_skipna_degrades (vs : List (Option ℚ)) (v : ℚ) :
    summarizeStatistics vs = summarizeStatistics ((nonMissing vs).map some) ∧
    (nonMissing vs = [] →
      summarizeStatistics vs =
        { max := none, min := none, mean := none, stddev := none }) ∧
    (nonMissing vs = [v] →
      summarizeStatistics vs =
        { max := some v, min := some v, mean := some v, stddev := none }) ∧
    ((nonMissing vs).length < 2 → (summarizeStatistics vs).stddev = none) := by
  have hnm : nonMissing ((nonMissing vs).map some) = nonMissing vs := by
    simp [nonMissing, List.filterMap_map]
  refine ⟨?_, ?_, ?_, ?_⟩
  · unfold summarizeStatistics
    rw [hnm]
  · intro h
    simp [summarizeStatistics, h]
  · intro h
    simp [summarizeStatistics, h, List.max?, List.min?]
  · intro h
    simp [summarizeStatistics, h]

/-- Claim C3 witness: the amended statement applied to `[none, some 7]`. -/
theorem stats_skipna_degrades_witness :
    summarizeStatistics [none, some 7] =
      { max := some 7, min := some 7, mean := some 7, stddev := none } :=
  (stats_skipna_degrades [none, some 7] 7).2.2.1 (by decide)

/-- Claim C5 (confirmed): `aggregateYearly` (the `groupby('time.year').max`)
produces exactly one grid per distinct calendar year present in the input
time coordinate, the output years are distinct and ascending (strictly sorted),
and every output grid has exactly one value per (lat, lon) cell. -/
theorem aggregate_one_row_per_year (f : GriddedField) :
    ((aggregateYearly f).steps).Sorted (· < ·) ∧
    (∀ y : Int, y ∈ (aggregateYearly f).steps ↔ y ∈ f.steps.map Time.year) ∧
    (aggregateYearly f).data.length = (aggregateYearly f).steps.length ∧
    (aggregateYearly f).data.map (fun g => g.map List.length) =
      List.replicate (aggregateYearly f).steps.length
        (List.replicate f.lats.length f.lons.length) := by
  refine ⟨sorted_sortedUniq _, fun y => mem_sortedUniq y _, ?_, ?_⟩
  · simp [aggregateYearly]
  · show (List.map _ _).map _ = _
    rw [List.map_map]
    have h : ∀ y ∈ sortedUniq (f.steps.map Time.year),
        ((fun g => g.map List.length) ∘ fun y' =>
          mkGrid f.lats.length f.lons.length fun i j => yearCell f y' i j) y =
          List.replicate f.lats.length f.lons.length := by
      intro y _
      exact mkGrid_shape _ _ _
    rw [List.map_congr_left h, List.map_const']
    rfl

/-- Claim C5 witness: on the concrete two-year field, 2015 is among the
output years. -/
theorem aggregate_one_row_per_year_witness :
    (2015 : Int) ∈ (aggregateYearly exField).steps :=
  ((aggregate_one_row_per_year exField).2.1 2015).mpr (by decide)

/-- Claim C6 (confirmed): in `aggregateYearly`, a calendar year whose group
consists of a single time slice yields exactly that slice's cell values
(skipna max of one sample is the sample), and a cell all of whose samples in
the year are missing yields a missing value — in particular never zero.  The
first conjunct ties the per-cell function `yearCell` to the data actually
produced by `aggregateYearly`. -/
theorem yearly_single_sample_and_all_missing (f : GriddedField) (y : Int)
    (i j : Nat) (g : Grid) :
    (aggregateYearly f).data =
      (aggregateYearly f).steps.map
        (fun y' => mkGrid f.lats.length f.lons.length fun i' j' => yearCell f y' i' j') ∧
    (yearSlices f y = [g] → yearCell f y i j = getCell g i j) ∧
    ((∀ g' ∈ yearSlices f y, getCell g' i j = none) →
      yearCell f y i j = none ∧ yearCell f y i j ≠ some 0) := by
  refine ⟨rfl, ?_, ?_⟩
  · intro h
    rw [yearCell, h]
    show maxOpt (getCell g i j) none = _
    exact maxOpt_none_right _
  · intro h
    have hnone : yearCell f y i j = none := by
      apply listMaxOpt_all_none
      intro x hx
      rcases List.mem_map.mp hx with ⟨g', hg', hx'⟩
      rw [← hx']
      exact h g' hg'
    exact ⟨hnone, by rw [hnone]; exact fun hc => Option.noConfusion hc⟩

/-- Claim C6 witness: year 2015 of the concrete field has the single sample
grid `[[some 4]]` and yields its value; in the all-missing field the 2015
cell is missing and is not zero. -/
theorem yearly_single_sample_and_all_missing_witness :
    yearCell exField 2015 0 0 = getCell [[some 4]] 0 0 ∧
    (yearCell exAllMissing 2015 0 0 = none ∧
      yearCell exAllMissing 2015 0 0 ≠ some 0) := by
  constructor
  · exact (yearly_single_sample_and_all_missing exField 2015 0 0 [[some 4]]).2.1
      (by decide)
  · exact (yearly_single_sample_and_all_missing exAllMissing 2015 0 0 [[]]).2.2
      (by decide)

/-- Claim C8 (confirmed): `summarize` (the per-cell `mean` over the time or
year dimension) returns a 2D array whose shape is exactly (lat, lon) for every
field — in particular independently of the number of time steps — with each
in-range cell the skipna arithmetic mean of that cell's values over time, and
a missing value (NaN) propagated for any cell whose inputs are all missing.
It is a total function with no error outcome. -/
theorem summarize_shape_and_nan {σ : Type} (s : Stack σ) (i j : Nat) :
    (summarize s).length = s.lats.length ∧
    (summarize s).map List.length = List.replicate s.lats.length s.lons.length ∧
    (i < s.lats.length → j < s.lons.length →
      getCell (summarize s) i j = meanOpt (s.data.map fun g => getCell g i j)) ∧
    ((∀ g ∈ s.data, getCell g i j = none) → getCell (summarize s) i j = none) := by
  refine ⟨?_, mkGrid_shape _ _ _, ?_, ?_⟩
  · simp [summarize, mkGrid]
  · intro hi hj
    rw [summarize, getCell_mkGrid, if_pos ⟨hi, hj⟩]
  · intro h
    rw [summarize, getCell_mkGrid]
    by_cases hij : i < s.lats.length ∧ j < s.lons.length
    · rw [if_pos hij]
      have hall : (s.data.map fun g => getCell g i j).filterMap id = [] := by
        rw [List.filterMap_eq_nil_iff]
        intro a ha
        rcases List.mem_map.mp ha with ⟨g', hg', ha'⟩
        rw [← ha']
        exact h g' hg'
      rw [meanOpt]
      simp only [nonMissing, hall]
      rfl
    · rw [if_neg hij]

/-- Claim C8 witness: on the concrete two-step field the (0,0) summary cell is
the mean of its two samples, and on the all-missing field it is missing. -/
theorem summarize_shape_and_nan_witness :
    getCell (summarize exField) 0 0 =
      meanOpt (exField.data.map fun g => getCell g 0 0) ∧
    getCell (summarize exAllMissing) 0 0 = none := by
  constructor
  · exact (summarize_shape_and_nan exField 0 0).2.2.1 (by decide) (by decide)
  · exact (summarize_shape_and_nan exAllMissing 0 0).2.2.2 (by decide)

/-- Claim C1 counterexample: on the axis [10, 20, 30] the query 25 is
equidistant from 20 and 30; the claim's documented tie-break ("first match in
ascending coordinate order", modelled by `specNearestVal`) would pick 20, but
pandas' `get_indexer(method="nearest")` — and hence `sel(method='nearest')` —
breaks ties by preferring the larger index value and picks 30. -/
theorem nearest_tiebreak_cex :
    nearestVal [10, 20, 30] 25 = some 30 ∧
    specNearestVal [10, 20, 30] 25 = some 20 ∧
    some (30 : ℚ) ≠ some (20 : ℚ) := by
  refine ⟨?_, ?_, by norm_num⟩
  · norm_num [nearestVal, nearestPair, nearestGo, absDist, List.enum,
      List.enumFrom]
  · norm_num [specNearestVal, specNearestGo, absDist]

/-- Claim C1 as amended (tie-break corrected to pandas' actual rule): for
every non-empty strictly ascending axis and query, the nearest scan selects a
grid value minimizing the absolute difference to the query, with ties broken
by preferring the LARGER coordinate value (the larger index on an ascending
axis), and it is total — there is no distance cutoff, so a query outside the
grid still resolves to the closest edge cell (e.g. 100 on [10, 20, 30]
resolves to 30).  On [10, 20, 30]: 14 resolves to 10, 16 to 20, and the tie at
25 to 30.  `resolvePoint` applies this rule to each axis independently: the
resolved latitude is a function of the latitude axis and query latitude alone,
and likewise for longitude. -/
theorem nearest_rule :
    (∀ (axis : List ℚ) (q : ℚ), axis ≠ [] → axis.Sorted (· < ·) →
      ∃ v, nearestVal axis q = some v ∧ v ∈ axis ∧
        (∀ u ∈ axis, |v - q| ≤ |u - q|) ∧
        (∀ u ∈ axis, |u - q| = |v - q| → u ≤ v)) ∧
    nearestVal [10, 20, 30] 14 = some 10 ∧
    nearestVal [10, 20, 30] 16 = some 20 ∧
    nearestVal [10, 20, 30] 25 = some 30 ∧
    nearestVal [10, 20, 30] 100 = some 30 ∧
    (∀ (s : GriddedField) (qlat qlon : ℚ) (rs : ResolvedSeries Time),
      resolvePoint s qlat qlon = .ok rs →
        some rs.lat = nearestVal s.lats qlat ∧
        some rs.lon = nearestVal s.lons qlon) := by
  refine ⟨?_,
    by norm_num [nearestVal, nearestPair, nearestGo, absDist, List.enum,
      List.enumFrom],
    by norm_num [nearestVal, nearestPair, nearestGo, absDist, List.enum,
      List.enumFrom],
    by norm_num [nearestVal, nearestPair, nearestGo, absDist, List.enum,
      List.enumFrom],
    by norm_num [nearestVal, nearestPair, nearestGo, absDist, List.enum,
      List.enumFrom],
    ?_⟩
  · intro axis q hne hsort
    cases h : axis.enum with
    | nil => exact absurd (List.enum_eq_nil.mp h) hne
    | cons p rest =>
      have hval : nearestVal axis q = some (nearestGo q p rest).2 := by
        simp [nearestVal, nearestPair, h]
      refine ⟨(nearestGo q p rest).2, hval, ?_, ?_, ?_⟩
      · have hmem := nearestGo_mem q p rest
        rw [← h] at hmem
        have hm := List.mem_map_of_mem Prod.snd hmem
        rw [List.enum_map_snd] at hm
        exact hm
      · intro u hu
        have hm : u ∈ axis.enum.map Prod.snd := by
          rw [List.enum_map_snd]; exact hu
        rcases List.mem_map.mp hm with ⟨pu, hpu, hval'⟩
        rw [← hval', ← absDist_eq_abs, ← absDist_eq_abs]
        rw [h] at hpu
        exact nearestGo_min q p rest pu hpu
      · intro u hu hdist
        have hsort' : (axis.enum.map Prod.snd).Sorted (· < ·) := by
          rw [List.enum_map_snd]; exact hsort
        have hpw : axis.enum.Pairwise (fun s t => s.2 < t.2) :=
          List.pairwise_map.mp hsort'
        rw [h] at hpw
        have hm : u ∈ axis.enum.map Prod.snd := by
          rw [List.enum_map_snd]; exact hu
        rcases List.mem_map.mp hm with ⟨pu, hpu, hval'⟩
        rw [h] at hpu
        rw [← hval', ← absDist_eq_abs, ← absDist_eq_abs] at hdist
        rw [← hval']
        exact nearestGo_tie q p rest hpw pu hpu hdist
  · intro s qlat qlon rs hok
    unfold resolvePoint at hok
    cases h1 : nearestPair s.lats qlat with
    | none => rw [h1] at hok; exact Except.noConfusion hok
    | some pi =>
      cases h2 : nearestPair s.lons qlon with
      | none => rw [h1, h2] at hok; exact Except.noConfusion hok
      | some pj =>
        rw [h1, h2] at hok
        have heq := Except.ok.inj hok
        rw [← heq]
        constructor
        · simp [nearestVal, h1]
        · simp [nearestVal, h2]

/-- Claim C1 witness: the general nearest rule applied to the concrete sorted
axis [10, 20, 30] with query 25. -/
theorem nearest_rule_witness :
    ∃ v, nearestVal [10, 20, 30] 25 = some v ∧ v ∈ [(10 : ℚ), 20, 30] ∧
      (∀ u ∈ [(10 : ℚ), 20, 30], |v - 25| ≤ |u - 25|) ∧
      (∀ u ∈ [(10 : ℚ), 20, 30], |u - 25| = |v - 25| → u ≤ v) :=
  nearest_rule.1 [10, 20, 30] 25 (by simp) (by norm_num [List.sorted_cons])

/-- Claim C7 (confirmed): `fitLinearTrend` (`np.polyfit(year, value, 1)`) is
the first-degree least-squares fit against the independent variable year — it
returns the slope and intercept minimizing the residual sum of squares over
all candidate lines — and on the perfectly linear input
[(2000, 1), (2001, 2), (2002, 3)] it yields slope 1 and intercept −1999
exactly (the intercept −1999, rather than the value an index-based fit would
give, shows the fit runs against the year values). -/
theorem fit_least_squares :
    (∀ (pts : List (ℚ × ℚ)) (a b : ℚ), lsqDen pts ≠ 0 →
      fitLinearTrend pts = .ok (fitSlope pts, fitIntercept pts) ∧
      SSE pts (fitSlope pts) (fitIntercept pts) ≤ SSE pts a b) ∧
    fitLinearTrend exPts = .ok (1, -1999) := by
  constructor
  · intro pts a b hD
    constructor
    · cases pts with
      | nil => exact absurd rfl (lsqDen_ne_zero_ne_nil [] hD)
      | cons p0 tl =>
        simp only [fitLinearTrend]
        rw [if_neg hD]
    · rw [sse_decomposition pts a b (fitSlope pts) (fitIntercept pts),
        normal_eq_one pts hD, normal_eq_two pts hD]
      linarith [sumBy_sq_nonneg pts
        (fun p => (fitSlope pts - a) * p.1 + (fitIntercept pts - b))]
  · have hden : lsqDen exPts ≠ 0 := by
      norm_num [lsqDen, nQ, sumBy, exPts]
    simp only [fitLinearTrend, exPts]
    rw [if_neg (by norm_num [lsqDen, nQ, sumBy] :
      ¬ lsqDen [((2000 : ℚ), (1 : ℚ)), (2001, 2), (2002, 3)] = 0)]
    norm_num [fitSlope, fitIntercept, lsqDen, nQ, sumBy]

/-- Claim C7 witness: on the concrete series the fitted line's residual sum of
squares is no larger than that of the line y = 0. -/
theorem fit_least_squares_witness :
    fitLinearTrend exPts = .ok (fitSlope exPts, fitIntercept exPts) ∧
    SSE exPts (fitSlope exPts) (fitIntercept exPts) ≤ SSE exPts 0 0 :=
  fit_least_squares.1 exPts 0 0 (by norm_num [lsqDen, nQ, sumBy, exPts])

/-- Claim C9 as amended (the column list corrected): exporting a yearly
ResolvedSeries to CSV — one row per sample, in stored order, with the four
columns year, lat, lon, pr that `to_dataframe().reset_index()` actually
produces (the scalar lat/lon coordinates of the selected point are included
as columns) — and reparsing the CSV reproduces exactly the exported rows, and
hence the same (year, value) pairs in the same order. -/
theorem csv_round_trip (rs : ResolvedSeries Int) :
    parseCsv (toCsv rs) =
      some (rs.series.map fun tv => (tv.1, rs.lat, rs.lon, tv.2)) ∧
    ((rs.series.map fun tv => (tv.1, rs.lat, rs.lon, tv.2)).map
      fun r => (r.1, r.2.2.2)) = rs.series := by
  refine ⟨parseCsv_toCsv rs, ?_⟩
  rw [List.map_map]
  have h : ∀ tv ∈ rs.series,
      ((fun r => (r.1, r.2.2.2)) ∘ fun tv => (tv.1, rs.lat, rs.lon, tv.2)) tv
        = tv := by
    intro tv _
    rfl
  rw [List.map_congr_left h]
  exact List.map_id rs.series

/-- Claim C9 counterexample: the claim describes the CSV as having the two
columns time-or-year and value, but the header line of the CSV written by
`app_final.py` has four comma-separated fields (`year,lat,lon,pr`), because
xarray's `to_dataframe` includes the scalar lat/lon coordinates of the
selected point as columns. -/
theorem csv_two_columns_cex :
    (splitOnChar '\n' (toCsvChars exSeries)).headD [] = headerChars ∧
    (splitOnChar ',' headerChars).length = 4 ∧ (4 : Nat) ≠ 2 := by
  refine ⟨?_, by decide, by decide⟩
  unfold toCsvChars
  rw [splitOnChar_terminated '\n' _ ?nolines]
  · rfl
  case nolines =>
    intro l hl
    rcases List.mem_cons.mp hl with h | h
    · rw [h]; exact headerChars_no_newline
    · rcases List.mem_map.mp h with ⟨tv, _, htv⟩
      rw [← htv]
      exact rowChars_no_newline tv.1 exSeries.lat exSeries.lon tv.2

end FloodStorm
